import Mathlib

/-
  Verification of the instruction hierarchy of the high-level CFG IR
  (src/include/swift/CFG/Instruction.h).

  The header is the authority for everything it defines inline (classof
  range tests, getSuccessors bodies, CondBranchInst accessors/mutators,
  the empty deleteNode, the StoreInst/ReturnInst field layout).  Parts of
  the repository that are only declared in the header — the ValueKind
  enumeration (swift/CFG/Value.h), CFGLocation (swift/CFG/CFGLocation.h),
  and the out-of-line bodies (constructors, create factories,
  removeFromParent / eraseFromParent, the ilist trait hooks) — are
  modelled from the specification, and each such definition is marked
  `Modelled from the spec:` in its doc comment.

  Pointers and handles are modelled by natural-number identities: AST
  nodes (Decl, Expr, Stmt), basic blocks, and instructions are opaque
  identities in this IR, referenced but never dereferenced here.
-/

namespace SwiftCFG

/-- Modelled from the spec: the closed ValueKind enumeration
(swift/CFG/Value.h is not in the repository).  Variants are listed in the
spec's category order — Allocation (AllocVar, AllocTmp, AllocArray), then
Computation, then Terminator (Unreachable, Return, Branch, CondBranch) —
so that category membership is testable by tag-range comparison. -/
inductive ValueKind where
  | AllocVar
  | AllocTmp
  | AllocArray
  | Apply
  | ConstantRef
  | ZeroValue
  | IntegerLiteral
  | FloatLiteral
  | CharacterLiteral
  | StringLiteral
  | Load
  | Store
  | TypeConversion
  | Tuple
  | TypeOf
  | ScalarToTuple
  | TupleElement
  | IndexLValue
  | Unreachable
  | Return
  | Branch
  | CondBranch
  deriving DecidableEq, Fintype

/-- Modelled from the spec: the numeric tag of each ValueKind variant, in
enumeration order; the range tests below compare these tags. -/
def ValueKind.toNat : ValueKind → Nat
  | .AllocVar => 0
  | .AllocTmp => 1
  | .AllocArray => 2
  | .Apply => 3
  | .ConstantRef => 4
  | .ZeroValue => 5
  | .IntegerLiteral => 6
  | .FloatLiteral => 7
  | .CharacterLiteral => 8
  | .StringLiteral => 9
  | .Load => 10
  | .Store => 11
  | .TypeConversion => 12
  | .Tuple => 13
  | .TypeOf => 14
  | .ScalarToTuple => 15
  | .TupleElement => 16
  | .IndexLValue => 17
  | .Unreachable => 18
  | .Return => 19
  | .Branch => 20
  | .CondBranch => 21

/-- Modelled from the spec: `First_InstructionInst` — every variant is an
instruction, so the instruction range starts at the first variant. -/
def First_InstructionInst : ValueKind := .AllocVar

/-- Modelled from the spec: `Last_InstructionInst`. -/
def Last_InstructionInst : ValueKind := .CondBranch

/-- Modelled from the spec: `First_AllocInst` — the Allocation category is
AllocVar, AllocTmp, AllocArray. -/
def First_AllocInst : ValueKind := .AllocVar

/-- Modelled from the spec: `Last_AllocInst`. -/
def Last_AllocInst : ValueKind := .AllocArray

/-- Modelled from the spec: `First_TermInst` — the Terminator category is
Unreachable, Return, Branch, CondBranch. -/
def First_TermInst : ValueKind := .Unreachable

/-- Modelled from the spec: `Last_TermInst`. -/
def Last_TermInst : ValueKind := .CondBranch

/-- `Instruction::classof` (Instruction.h lines 110-113): kind-range test
`First_InstructionInst <= kind <= Last_InstructionInst`. -/
def Instruction.classof (k : ValueKind) : Bool :=
  First_InstructionInst.toNat ≤ k.toNat && k.toNat ≤ Last_InstructionInst.toNat

/-- `AllocInst::classof` (Instruction.h lines 127-130): kind-range test
`First_AllocInst <= kind <= Last_AllocInst`. -/
def AllocInst.classof (k : ValueKind) : Bool :=
  First_AllocInst.toNat ≤ k.toNat && k.toNat ≤ Last_AllocInst.toNat

/-- `TermInst::classof` (Instruction.h lines 510-513): kind-range test
`First_TermInst <= kind <= Last_TermInst`. -/
def TermInst.classof (k : ValueKind) : Bool :=
  First_TermInst.toNat ≤ k.toNat && k.toNat ≤ Last_TermInst.toNat

/-- A basic-block identity: `BasicBlock*` used purely as an opaque handle
(edge target, parent back-pointer). -/
abbrev BlockRef := Nat

/-- `CFGValue`: a trivially copyable pointer-equivalent handle to the
producing instruction; like the pointer it wraps, it can be null. -/
abbrev CFGValue := Option Nat

/-- `CondBranchInst` payload (Instruction.h lines 587-614): the condition
value and the two-element successor array `DestBBs`. -/
structure CondBranchInst where
  Condition : CFGValue
  DestBB0 : BlockRef
  DestBB1 : BlockRef
  deriving DecidableEq

/-- `CondBranchInst::getCondition` (line 597). -/
def CondBranchInst.getCondition (cb : CondBranchInst) : CFGValue := cb.Condition

/-- `CondBranchInst::getTrueBB` (line 603): returns `DestBBs[0]`. -/
def CondBranchInst.getTrueBB (cb : CondBranchInst) : BlockRef := cb.DestBB0

/-- `CondBranchInst::getFalseBB` (line 605): returns `DestBBs[1]`. -/
def CondBranchInst.getFalseBB (cb : CondBranchInst) : BlockRef := cb.DestBB1

/-- `CondBranchInst::setTrueBB` (line 608): writes `DestBBs[0]`. -/
def CondBranchInst.setTrueBB (cb : CondBranchInst) (BB : BlockRef) : CondBranchInst :=
  { cb with DestBB0 := BB }

/-- `CondBranchInst::setFalseBB` (line 609): writes `DestBBs[1]`. -/
def CondBranchInst.setFalseBB (cb : CondBranchInst) (BB : BlockRef) : CondBranchInst :=
  { cb with DestBB1 := BB }

/-- `CondBranchInst::getSuccessors` (lines 599-601): returns the
`DestBBs` array, i.e. the two successors in slot order. -/
def CondBranchInst.getSuccessors (cb : CondBranchInst) : List BlockRef :=
  [cb.DestBB0, cb.DestBB1]

/-- The terminator variants (Instruction.h lines 516-614), each with the
payload from the source: Unreachable (none), Return (the return value),
Branch (the `DestBB` successor), CondBranch (its payload above). -/
inductive TermInst where
  | unreachableInst
  | returnInst (ReturnValue : CFGValue)
  | branchInst (DestBB : BlockRef)
  | condBranchInst (cb : CondBranchInst)
  deriving DecidableEq

/-- `getSuccessors` dispatch over the terminator variants, each case the
inline body from the source: Unreachable and Return return an empty list
(lines 523-526, 549-552), Branch returns the one-element list of `DestBB`
(lines 578-580), CondBranch returns the `DestBBs` array (lines 599-601). -/
def TermInst.getSuccessors : TermInst → List BlockRef
  | .unreachableInst => []
  | .returnInst _ => []
  | .branchInst DestBB => [DestBB]
  | .condBranchInst cb => cb.getSuccessors

/-- Modelled from the spec: `CFGLocation` (swift/CFG/CFGLocation.h is not
in the repository) — a tagged union over Decl, Expr, Stmt and the
null/synthetic state; AST nodes are opaque identities. -/
inductive CFGLocation where
  | null
  | decl (d : Nat)
  | expr (e : Nat)
  | stmt (s : Nat)
  deriving DecidableEq

/-- Outcome of a typed location accessor: either the call aborts
(programmer error — wrong tag requested), or it returns an AST pointer,
possibly null. -/
inductive LocResult where
  | aborts
  | returnsPtr (val : Option Nat)
  deriving DecidableEq

/-- Modelled from the spec: `CFGLocation::get<Decl*>` — the underlying
pointer when the tag is Decl, null when the location is synthetic, and an
abort when the tag indicates a different category. -/
def CFGLocation.getDecl : CFGLocation → LocResult
  | .null => .returnsPtr none
  | .decl d => .returnsPtr (some d)
  | .expr _ => .aborts
  | .stmt _ => .aborts

/-- Modelled from the spec: `CFGLocation::get<Expr*>`. -/
def CFGLocation.getExpr : CFGLocation → LocResult
  | .null => .returnsPtr none
  | .decl _ => .aborts
  | .expr e => .returnsPtr (some e)
  | .stmt _ => .aborts

/-- Modelled from the spec: `CFGLocation::get<Stmt*>`. -/
def CFGLocation.getStmt : CFGLocation → LocResult
  | .null => .returnsPtr none
  | .decl _ => .aborts
  | .expr _ => .aborts
  | .stmt s => .returnsPtr (some s)

/-- The `Instruction` header state (Instruction.h lines 56-72): the Value
kind, the `ParentBB` back-reference (null when detached) and the
`CFGLocation`. -/
structure InstructionBase where
  Kind : ValueKind
  ParentBB : Option BlockRef
  Loc : CFGLocation
  deriving DecidableEq

/-- `Instruction::getLocDecl` (line 85): `Loc.get<Decl*>()`; the
template downcast is taken at the exact node class, so `cast_or_null`
is the identity on the returned pointer. -/
def InstructionBase.getLocDecl (i : InstructionBase) : LocResult := i.Loc.getDecl

/-- `Instruction::getLocExpr` (line 91): `Loc.get<Expr*>()`. -/
def InstructionBase.getLocExpr (i : InstructionBase) : LocResult := i.Loc.getExpr

/-- `Instruction::getLocStmt` (line 97): `Loc.get<Stmt*>()`. -/
def InstructionBase.getLocStmt (i : InstructionBase) : LocResult := i.Loc.getStmt

/-- `ApplyInst` payload (Instruction.h lines 188-220): the callee handle
and the trailing argument slots; `NumArgs` is the slot count, here the
length of the slot list. -/
structure ApplyInst where
  Loc : CFGLocation
  Callee : CFGValue
  ArgsStorage : List CFGValue
  deriving DecidableEq

/-- Modelled from the spec: `ApplyInst::create` (lines 201-202, body not
in the repository) — allocates header plus `N` value-handle slots from
the arena and placement-initializes the slots with the argument list. -/
def ApplyInst.create (e : Nat) (Callee : CFGValue) (Args : List CFGValue) : ApplyInst :=
  { Loc := .expr e, Callee := Callee, ArgsStorage := Args }

/-- `ApplyInst::getCallee` (line 205). -/
def ApplyInst.getCallee (a : ApplyInst) : CFGValue := a.Callee

/-- `ApplyInst::getArguments` (lines 208-210): the `NumArgs` slots of
trailing storage. -/
def ApplyInst.getArguments (a : ApplyInst) : List CFGValue := a.ArgsStorage

/-- `TupleInst` payload (Instruction.h lines 381-416): the trailing
element slots. -/
structure TupleInst where
  Loc : CFGLocation
  ElementsStorage : List CFGValue
  deriving DecidableEq

/-- Modelled from the spec: `TupleInst::createImpl` (line 390, body not
in the repository) — allocates header plus `N` slots from the arena and
copies the element list into the trailing storage. -/
def TupleInst.createImpl (e : Nat) (Elements : List CFGValue) : TupleInst :=
  { Loc := .expr e, ElementsStorage := Elements }

/-- `TupleInst::create` from a TupleExpr (lines 405-407): forwards to
`createImpl`. -/
def TupleInst.create (e : Nat) (Elements : List CFGValue) : TupleInst :=
  TupleInst.createImpl e Elements

/-- `TupleInst::create` from a TupleShuffleExpr (lines 408-411): forwards
to `createImpl`. -/
def TupleInst.createFromShuffle (e : Nat) (Elements : List CFGValue) : TupleInst :=
  TupleInst.createImpl e Elements

/-- `TupleInst::getElements` (lines 394-396). -/
def TupleInst.getElements (t : TupleInst) : List CFGValue := t.ElementsStorage

/-- `StoreInst` state (Instruction.h lines 340-363): source and
destination handles and the `IsInitialization` flag, plus the inherited
location; the structure has no further fields, so a constructed store
carries no other trace of its origin. -/
structure StoreInst where
  Loc : CFGLocation
  Src : CFGValue
  Dest : CFGValue
  IsInitialization : Bool
  deriving DecidableEq

/-- `StoreInst::getSrc` (line 355). -/
def StoreInst.getSrc (st : StoreInst) : CFGValue := st.Src

/-- `StoreInst::getDest` (line 356). -/
def StoreInst.getDest (st : StoreInst) : CFGValue := st.Dest

/-- `StoreInst::isInitialization` (line 358). -/
def StoreInst.isInitialization (st : StoreInst) : Bool := st.IsInitialization

/-- Modelled from the spec: the `StoreInst(AssignStmt*, ...)` constructor
(line 350, body not in the repository) — an assignment writes over
initialized contents, so `IsInitialization` is false; the location binds
the assignment statement. -/
def StoreInst.constructAssign (s : Nat) (Src Dest : CFGValue) : StoreInst :=
  { Loc := .stmt s, Src := Src, Dest := Dest, IsInitialization := false }

/-- Modelled from the spec: the `StoreInst(VarDecl*, ...)` constructor
(line 351, body not in the repository) — variable initialization writes
into a just-allocated, uninitialized destination, so `IsInitialization`
is true; the location binds the declaration. -/
def StoreInst.constructVarDecl (d : Nat) (Src Dest : CFGValue) : StoreInst :=
  { Loc := .decl d, Src := Src, Dest := Dest, IsInitialization := true }

/-- Modelled from the spec: the `StoreInst(MaterializeExpr*, ...)`
constructor (line 352, body not in the repository) — the store
initializes a freshly materialized temporary, so `IsInitialization` is
true; the location binds the expression. -/
def StoreInst.constructMaterialize (e : Nat) (Src Dest : CFGValue) : StoreInst :=
  { Loc := .expr e, Src := Src, Dest := Dest, IsInitialization := true }

/-- Modelled from the spec: the `StoreInst(TupleShuffleExpr*, ...)`
constructor (line 353, body not in the repository) — tuple-shuffle
lowering initializes uninitialized array element memory obtained from
AllocArray, so `IsInitialization` is true; the location binds the
expression. -/
def StoreInst.constructTupleShuffle (e : Nat) (Src Dest : CFGValue) : StoreInst :=
  { Loc := .expr e, Src := Src, Dest := Dest, IsInitialization := true }

/-- `ReturnInst` state (Instruction.h lines 534-557): the `ReturnValue`
operand together with the source's stated invariant "This is never
null" (line 535). -/
structure ReturnInst where
  Loc : CFGLocation
  ReturnValue : CFGValue
  returnValue_not_null : ReturnValue ≠ none

/-- `ReturnInst::getReturnValue` (line 547). -/
def ReturnInst.getReturnValue (r : ReturnInst) : CFGValue := r.ReturnValue

/-- Modelled from the spec: the `ReturnInst(ReturnStmt*, CFGValue)`
constructor (line 545, body not in the repository) — binds the return
statement's location and stores the non-null return value; unit returns
pass an explicit value, never a null handle. -/
def ReturnInst.construct (s : Nat) (v : CFGValue) (h : v ≠ none) : ReturnInst :=
  { Loc := .stmt s, ReturnValue := v, returnValue_not_null := h }

/-- An instruction identity: `Instruction*` used as an opaque handle in
the block-membership model. -/
abbrev InstId := Nat

/-- The state the intrusive-list machinery acts on: every instruction's
`ParentBB` back-pointer (null when detached), each block's ordered
instruction list, and the arena's record of storage already returned
(`destroyed i = true` once `i`'s storage has been given back). -/
structure CFGState where
  parent : InstId → Option BlockRef
  insts : BlockRef → List InstId
  destroyed : InstId → Bool

/-- Modelled from the spec: appending an instruction to a block's list —
the ilist insertion together with the `addNodeToList` hook (declared at
Instruction.h line 645, body not in the repository), which sets
`i.parent` to the owning block. -/
def CFGState.insertInst (s : CFGState) (b : BlockRef) (i : InstId) : CFGState :=
  { parent := Function.update s.parent i (some b),
    insts := Function.update s.insts b (s.insts b ++ [i]),
    destroyed := s.destroyed }

/-- Modelled from the spec: `Instruction::removeFromParent` (declared at
Instruction.h line 103, body not in the repository) — unlinks the
instruction from its containing block's list (the `removeNodeFromList`
hook clears the parent pointer) but does not destroy it; a detached
instruction is left untouched. -/
def CFGState.removeFromParent (s : CFGState) (i : InstId) : CFGState :=
  match s.parent i with
  | none => s
  | some b =>
    { parent := Function.update s.parent i none,
      insts := Function.update s.insts b ((s.insts b).filter (fun j => j != i)),
      destroyed := s.destroyed }

/-- `ilist_traits<Instruction>::deleteNode` (Instruction.h line 643): the
body is empty — destroying a node through the list neither frees the
node nor touches any state (arena ownership). -/
def CFGState.deleteNode (s : CFGState) (_i : InstId) : CFGState := s

/-- Modelled from the spec: `Instruction::eraseFromParent` (declared at
Instruction.h line 108, body not in the repository) — detach, then
destroy: the storage is returned to the arena. -/
def CFGState.eraseFromParent (s : CFGState) (i : InstId) : CFGState :=
  { s.removeFromParent i with
    destroyed := Function.update (s.removeFromParent i).destroyed i true }

/-- Modelled from the spec:
`ilist_traits<Instruction>::transferNodesFromList` (declared at
Instruction.h lines 647-649, body not in the repository) — the ilist
splice of the half-open index range [first, lastIdx) of `b1`'s list into
`b2`'s list at position `pos`, together with the trait hook that
re-parents every moved instruction to the new owner in one pass. -/
def CFGState.transferNodesFromList (s : CFGState) (b1 b2 : BlockRef)
    (first lastIdx pos : Nat) : CFGState :=
  let l1 := s.insts b1
  let moved := (l1.take lastIdx).drop first
  let rest := l1.take first ++ l1.drop lastIdx
  let l2 := s.insts b2
  let spliced := l2.take pos ++ moved ++ l2.drop pos
  { parent := fun j => if j ∈ moved then some b2 else s.parent j,
    insts := Function.update (Function.update s.insts b1 rest) b2 spliced,
    destroyed := s.destroyed }

/-- Parent consistency: every instruction in a block's list has that
block as its parent back-pointer. -/
def ParentConsistent (s : CFGState) : Prop :=
  ∀ b i, i ∈ s.insts b → s.parent i = some b

/-- Claim C1: every value of kind AllocArray passes the allocation
category test (AllocInst::classof), and the Allocation category contains
exactly the kinds AllocVar, AllocTmp and AllocArray. -/
theorem allocArray_in_alloc_category :
    AllocInst.classof ValueKind.AllocArray = true ∧
    (∀ k : ValueKind, AllocInst.classof k = true ↔
      (k = ValueKind.AllocVar ∨ k = ValueKind.AllocTmp ∨ k = ValueKind.AllocArray)) := by
  constructor
  · decide
  · decide

/-- Claim C2: getSuccessors returns the fixed per-variant successor
sequence — empty for Unreachable and Return, the one-element sequence
(destBB) for Branch, and (trueBB, falseBB) in that order for CondBranch. -/
theorem getSuccessors_per_variant :
    TermInst.getSuccessors .unreachableInst = [] ∧
    (∀ v : CFGValue, TermInst.getSuccessors (.returnInst v) = []) ∧
    (∀ d : BlockRef, TermInst.getSuccessors (.branchInst d) = [d]) ∧
    (∀ cb : CondBranchInst,
      TermInst.getSuccessors (.condBranchInst cb) = [cb.getTrueBB, cb.getFalseBB]) :=
  ⟨rfl, fun _ => rfl, fun _ => rfl, fun _ => rfl⟩

/-- Claim C10: setTrueBB changes exactly successor slot 0 — afterwards
getTrueBB and getSuccessors head are the new block while getFalseBB and
getCondition are unchanged — and symmetrically setFalseBB changes exactly
slot 1. -/
theorem condBranch_set_succ_frame (cb : CondBranchInst) (B : BlockRef) :
    (cb.setTrueBB B).getTrueBB = B ∧
    (cb.setTrueBB B).getSuccessors = [B, cb.getFalseBB] ∧
    (cb.setTrueBB B).getFalseBB = cb.getFalseBB ∧
    (cb.setTrueBB B).getCondition = cb.getCondition ∧
    (cb.setFalseBB B).getFalseBB = B ∧
    (cb.setFalseBB B).getSuccessors = [cb.getTrueBB, B] ∧
    (cb.setFalseBB B).getTrueBB = cb.getTrueBB ∧
    (cb.setFalseBB B).getCondition = cb.getCondition :=
  ⟨rfl, rfl, rfl, rfl, rfl, rfl, rfl, rfl⟩

/-- Claim C5: ApplyInst::create with n arguments yields getArguments of
length n whose slot k holds the k-th constructed argument (the slot list
equals the argument list, and so does every getD-indexed slot); likewise
TupleInst::create (both syntactic forms) for getElements. -/
theorem trailing_storage_roundtrip (e : Nat) (c : CFGValue) (args elems : List CFGValue) :
    (ApplyInst.create e c args).getArguments.length = args.length ∧
    (ApplyInst.create e c args).getArguments = args ∧
    (∀ k : Nat, (ApplyInst.create e c args).getArguments.getD k none = args.getD k none) ∧
    (TupleInst.create e elems).getElements.length = elems.length ∧
    (TupleInst.create e elems).getElements = elems ∧
    (∀ k : Nat, (TupleInst.create e elems).getElements.getD k none = elems.getD k none) ∧
    (TupleInst.createFromShuffle e elems).getElements = elems :=
  ⟨rfl, rfl, fun _ => rfl, rfl, rfl, fun _ => rfl, rfl⟩

/-- Claim C6: isInitialization is fixed by the constructor alone — false
for the AssignStmt form, true for the VarDecl, MaterializeExpr and
TupleShuffleExpr forms where the destination is uninitialized — and the
constructed instruction is exactly its (location, src, dest,
isInitialization) record, so no other observable state depends on which
constructor ran: the two expression-located initializing constructors
produce identical instructions from the same inputs. -/
theorem store_constructor_characterization (s d e : Nat) (Src Dest : CFGValue) :
    (StoreInst.constructAssign s Src Dest).isInitialization = false ∧
    (StoreInst.constructVarDecl d Src Dest).isInitialization = true ∧
    (StoreInst.constructMaterialize e Src Dest).isInitialization = true ∧
    (StoreInst.constructTupleShuffle e Src Dest).isInitialization = true ∧
    StoreInst.constructAssign s Src Dest =
      { Loc := .stmt s, Src := Src, Dest := Dest, IsInitialization := false } ∧
    StoreInst.constructVarDecl d Src Dest =
      { Loc := .decl d, Src := Src, Dest := Dest, IsInitialization := true } ∧
    StoreInst.constructMaterialize e Src Dest =
      { Loc := .expr e, Src := Src, Dest := Dest, IsInitialization := true } ∧
    StoreInst.constructMaterialize e Src Dest = StoreInst.constructTupleShuffle e Src Dest :=
  ⟨rfl, rfl, rfl, rfl, rfl, rfl, rfl, rfl⟩

/-- Claim C7: on an instruction whose location is a non-synthetic Expr,
getLocExpr returns that pointer and getLocStmt aborts; on an instruction
with a synthetic (null) location, all three typed accessors return null
rather than aborting. -/
theorem location_accessor_contract (i j : InstructionBase) (e : Nat)
    (hexpr : i.Loc = CFGLocation.expr e) (hnull : j.Loc = CFGLocation.null) :
    i.getLocExpr = LocResult.returnsPtr (some e) ∧
    i.getLocStmt = LocResult.aborts ∧
    j.getLocDecl = LocResult.returnsPtr none ∧
    j.getLocExpr = LocResult.returnsPtr none ∧
    j.getLocStmt = LocResult.returnsPtr none := by
  refine ⟨?_, ?_, ?_, ?_, ?_⟩ <;>
    simp [InstructionBase.getLocExpr, InstructionBase.getLocStmt,
      InstructionBase.getLocDecl, hexpr, hnull, CFGLocation.getExpr,
      CFGLocation.getStmt, CFGLocation.getDecl]

/-- Witness for C7 at a concrete Load instruction located at Expr 7 and a
concrete Unreachable instruction with a synthetic location. -/
theorem location_accessor_contract_witness :
    (InstructionBase.mk ValueKind.Load none (CFGLocation.expr 7)).Loc = CFGLocation.expr 7 ∧
    (InstructionBase.mk ValueKind.Unreachable none CFGLocation.null).Loc = CFGLocation.null ∧
    ((InstructionBase.mk ValueKind.Load none (CFGLocation.expr 7)).getLocExpr =
        LocResult.returnsPtr (some 7) ∧
      (InstructionBase.mk ValueKind.Load none (CFGLocation.expr 7)).getLocStmt =
        LocResult.aborts ∧
      (InstructionBase.mk ValueKind.Unreachable none CFGLocation.null).getLocDecl =
        LocResult.returnsPtr none ∧
      (InstructionBase.mk ValueKind.Unreachable none CFGLocation.null).getLocExpr =
        LocResult.returnsPtr none ∧
      (InstructionBase.mk ValueKind.Unreachable none CFGLocation.null).getLocStmt =
        LocResult.returnsPtr none) :=
  ⟨rfl, rfl,
    location_accessor_contract
      (InstructionBase.mk ValueKind.Load none (CFGLocation.expr 7))
      (InstructionBase.mk ValueKind.Unreachable none CFGLocation.null) 7 rfl rfl⟩

/-- Claim C8: a ReturnInst's returnValue operand is never the null
handle, and getReturnValue returns exactly the value passed at
construction. -/
theorem returnInst_value_contract (s : Nat) (v : CFGValue) (h : v ≠ none) :
    (ReturnInst.construct s v h).getReturnValue = v ∧
    (∀ r : ReturnInst, r.getReturnValue ≠ none) :=
  ⟨rfl, fun r => r.returnValue_not_null⟩

/-- Witness for C8 at a unit-like concrete return value (an explicit
value handle, not null). -/
theorem returnInst_value_contract_witness :
    (some 0 : CFGValue) ≠ none ∧
    ((ReturnInst.construct 5 (some 0) (by decide)).getReturnValue = some 0 ∧
      (∀ r : ReturnInst, r.getReturnValue ≠ none)) :=
  ⟨by decide, returnInst_value_contract 5 (some 0) (by decide)⟩

/-- Claim C3: in a parent-consistent state, an instruction in block b's
list has parent b; after removeFromParent it is not destroyed, its
parent is null, it is no longer in b's list, and parent consistency is
preserved. -/
theorem parent_consistency_remove (s : CFGState) (b : BlockRef) (i : InstId)
    (hwf : ParentConsistent s) (hmem : i ∈ s.insts b) :
    s.parent i = some b ∧
    (s.removeFromParent i).destroyed = s.destroyed ∧
    (s.removeFromParent i).parent i = none ∧
    i ∉ (s.removeFromParent i).insts b ∧
    ParentConsistent (s.removeFromParent i) := by
  have hp : s.parent i = some b := hwf b i hmem
  refine ⟨hp, ?_, ?_, ?_, ?_⟩
  · simp only [CFGState.removeFromParent, hp]
  · simp only [CFGState.removeFromParent, hp]
    exact Function.update_same i none s.parent
  · simp only [CFGState.removeFromParent, hp]
    rw [Function.update_same]
    simp [List.mem_filter]
  · intro bb j hj
    simp only [CFGState.removeFromParent, hp] at hj ⊢
    by_cases hb : bb = b
    · subst hb
      rw [Function.update_same] at hj
      rcases List.mem_filter.mp hj with ⟨hjmem, hji⟩
      have hji' : j ≠ i := by simpa using hji
      rw [Function.update_noteq hji']
      exact hwf bb j hjmem
    · rw [Function.update_noteq hb] at hj
      have hji' : j ≠ i := by
        intro hcontra
        subst hcontra
        have := hwf bb j hj
        rw [hp] at this
        exact hb (Option.some_injective _ this).symm
      rw [Function.update_noteq hji']
      exact hwf bb j hj

/-- A concrete two-instruction state used to witness the list claims:
block 1 holds instructions 3 and 4, both with parent 1. -/
def sampleState : CFGState :=
  { parent := fun j => if j = 3 ∨ j = 4 then some 1 else none,
    insts := fun b => if b = 1 then [3, 4] else [],
    destroyed := fun _ => false }

/-- Witness for C3 at sampleState, removing instruction 3 from block 1. -/
theorem parent_consistency_remove_witness :
    ParentConsistent sampleState ∧ 3 ∈ sampleState.insts 1 ∧
    (sampleState.parent 3 = some 1 ∧
      (sampleState.removeFromParent 3).destroyed = sampleState.destroyed ∧
      (sampleState.removeFromParent 3).parent 3 = none ∧
      3 ∉ (sampleState.removeFromParent 3).insts 1 ∧
      ParentConsistent (sampleState.removeFromParent 3)) := by
  have hwf : ParentConsistent sampleState := by
    intro b i hmem
    by_cases hb : b = 1
    · subst hb
      have hcases : i = 3 ∨ i = 4 := by simpa [sampleState] using hmem
      rcases hcases with h | h <;> subst h <;> simp [sampleState]
    · simp [sampleState, hb] at hmem
  have hmem : 3 ∈ sampleState.insts 1 := by
    simp [sampleState]
  exact ⟨hwf, hmem, parent_consistency_remove sampleState 1 3 hwf hmem⟩

/-- Claim C4: transferring the half-open range [first, lastIdx) of block
b1's duplicate-free list to a distinct block b2 re-parents every moved
instruction to b2, removes all of them from b1's list, and splices them
into b2's list in their original relative order. -/
theorem transfer_reparents_range (s : CFGState) (b1 b2 : BlockRef)
    (first lastIdx pos : Nat)
    (hne : b1 ≠ b2) (hnd : (s.insts b1).Nodup) (hfl : first ≤ lastIdx) :
    (∀ i ∈ ((s.insts b1).take lastIdx).drop first,
      (s.transferNodesFromList b1 b2 first lastIdx pos).parent i = some b2) ∧
    (∀ i ∈ ((s.insts b1).take lastIdx).drop first,
      i ∉ (s.transferNodesFromList b1 b2 first lastIdx pos).insts b1) ∧
    (s.transferNodesFromList b1 b2 first lastIdx pos).insts b2 =
      (s.insts b2).take pos ++ ((s.insts b1).take lastIdx).drop first ++
        (s.insts b2).drop pos := by
  have h1 : (s.insts b1).take first ++ ((s.insts b1).take lastIdx).drop first =
      (s.insts b1).take lastIdx := by
    have h := List.take_append_drop first ((s.insts b1).take lastIdx)
    rwa [List.take_take, min_eq_left hfl] at h
  have hdecomp : (s.insts b1).take first ++
      (((s.insts b1).take lastIdx).drop first ++ (s.insts b1).drop lastIdx) =
      s.insts b1 := by
    rw [← List.append_assoc, h1, List.take_append_drop]
  refine ⟨?_, ?_, ?_⟩
  · intro i hi
    simp only [CFGState.transferNodesFromList]
    rw [if_pos hi]
  · intro i hi
    have hnd' : ((s.insts b1).take first ++
        (((s.insts b1).take lastIdx).drop first ++ (s.insts b1).drop lastIdx)).Nodup := by
      rw [hdecomp]; exact hnd
    rcases List.nodup_append.mp hnd' with ⟨-, hndMB, hdisjA⟩
    rcases List.nodup_append.mp hndMB with ⟨-, -, hdisjMB⟩
    have hiA : i ∉ (s.insts b1).take first := fun hia =>
      hdisjA hia (List.mem_append_left _ hi)
    have hiB : i ∉ (s.insts b1).drop lastIdx := fun hib => hdisjMB hi hib
    simp only [CFGState.transferNodesFromList]
    rw [Function.update_noteq hne, Function.update_same]
    intro hcontra
    rcases List.mem_append.mp hcontra with hA | hB
    · exact hiA hA
    · exact hiB hB
  · simp only [CFGState.transferNodesFromList]
    rw [Function.update_same]

/-- A concrete two-block state used to witness the transfer claim:
block 1 holds instructions 10-13, block 2 holds 20 and 21. -/
def sampleState2 : CFGState :=
  { parent := fun j => if 10 ≤ j ∧ j ≤ 13 then some 1 else
      (if j = 20 ∨ j = 21 then some 2 else none),
    insts := fun b => if b = 1 then [10, 11, 12, 13] else
      (if b = 2 then [20, 21] else []),
    destroyed := fun _ => false }

/-- Witness for C4 at sampleState2: move range [1, 3) of block 1's list
(instructions 11 and 12) into block 2's list at position 1. -/
theorem transfer_reparents_range_witness :
    (1 : BlockRef) ≠ 2 ∧ (sampleState2.insts 1).Nodup ∧ (1 : Nat) ≤ 3 ∧
    ((∀ i ∈ ((sampleState2.insts 1).take 3).drop 1,
        (sampleState2.transferNodesFromList 1 2 1 3 1).parent i = some 2) ∧
      (∀ i ∈ ((sampleState2.insts 1).take 3).drop 1,
        i ∉ (sampleState2.transferNodesFromList 1 2 1 3 1).insts 1) ∧
      (sampleState2.transferNodesFromList 1 2 1 3 1).insts 2 =
        (sampleState2.insts 2).take 1 ++ ((sampleState2.insts 1).take 3).drop 1 ++
          (sampleState2.insts 2).drop 1) := by
  have hnd : (sampleState2.insts 1).Nodup := by
    simp only [sampleState2, if_pos rfl]
    decide
  exact ⟨by decide, hnd, by decide,
    transfer_reparents_range sampleState2 1 2 1 3 1 (by decide) hnd (by decide)⟩

/-- Claim C9: deleteNode is the identity on the whole state (it neither
frees the instruction nor alters its contents); insertion, detachment
and transfer never return storage; eraseFromParent both unlinks the
instruction and returns its storage to the arena. -/
theorem arena_storage_discipline (s : CFGState) (i : InstId)
    (b b1 b2 : BlockRef) (first lastIdx pos : Nat) :
    s.deleteNode i = s ∧
    (s.removeFromParent i).destroyed = s.destroyed ∧
    (s.insertInst b i).destroyed = s.destroyed ∧
    (s.transferNodesFromList b1 b2 first lastIdx pos).destroyed = s.destroyed ∧
    (s.eraseFromParent i).destroyed i = true ∧
    (s.eraseFromParent i).parent i = none := by
  have hrm : (s.removeFromParent i).destroyed = s.destroyed := by
    cases h : s.parent i <;> simp [CFGState.removeFromParent, h]
  have hrmp : (s.removeFromParent i).parent i = none := by
    cases h : s.parent i
    · simp [CFGState.removeFromParent, h]
    · simp only [CFGState.removeFromParent, h]
      exact Function.update_same i none s.parent
  refine ⟨rfl, hrm, rfl, rfl, ?_, ?_⟩
  · simp only [CFGState.eraseFromParent]
    exact Function.update_same i true (s.removeFromParent i).destroyed
  · simp only [CFGState.eraseFromParent]
    exact hrmp

end SwiftCFG
